import Mathlib

/-!
# Colored-squares pyramid (`gldemo.js`): colour animation, key input, layout, resize

A shallow embedding of the state-changing and numeric parts of `src/gldemo.js`.

* JavaScript numbers are modelled by exact rationals (`ℚ`), without `NaN`.  The colour
  animation of `render` is taken in exact arithmetic: its additions and its stores do not
  round.  The `keydown` handler stores `Math.random()` results, which are inputs of the
  handler, and that store keeps their binary32 rounding (`fround`), as a `Float32Array` does.
* `squareColors` is a constant array of ten `Float32Array(4)` and `colorSpeedAndDirection`
  a constant array of ten `Float32Array(3)`; their lengths never change, so they are
  indexed by `Fin 10`, `Fin 4` and `Fin 3`.
* WebGL calls do not touch the colour state and are left out of `render`; the model matrix
  of the ground and of a base-row square is modelled separately.
-/

namespace GlDemo

/-! ## Colour state -/

/-- The mutable state read and written by `render` and by the `keydown` handler. -/
structure State where
  /-- The ten RGBA colours, `squareColors[i][c]`. -/
  squareColors : Fin 10 → Fin 4 → ℚ
  /-- The ten RGB velocities, `colorSpeedAndDirection[i][c]`. -/
  colorSpeedAndDirection : Fin 10 → Fin 3 → ℚ
  /-- The mode flag: `true` is automatic cycling. -/
  autoMode : Bool
  /-- Time in seconds of the last automatic update. -/
  lastColorUpdate : ℚ

/-- Seconds between updates (line 186). -/
def COLOR_UPDATE_INTERVAL : ℚ := 1 / 2

/-- Store `squareColors[i][c] = v`, keeping `v` as it is (exact arithmetic). -/
def setColor (s : State) (i : Fin 10) (c : Fin 4) (v : ℚ) : State :=
  { s with
    squareColors := (Function.update s.squareColors i (Function.update (s.squareColors i) c v)) }

/-- Store `colorSpeedAndDirection[i][c] = v`. -/
def setSpeed (s : State) (i : Fin 10) (c : Fin 3) (v : ℚ) : State :=
  { s with
    colorSpeedAndDirection :=
      (Function.update s.colorSpeedAndDirection i
        (Function.update (s.colorSpeedAndDirection i) c v)) }

/-- Body of the inner loop of `render` (lines 250-253) for square `i`, channel `c`. -/
def channelBody (i : Fin 10) (c : Fin 3) (s : State) : State :=
  let v0 := s.squareColors i c.castSucc + s.colorSpeedAndDirection i c
  -- if (v < 0.0) { v = 0.0; colorSpeedAndDirection[i][c] *= -1; }
  let s1 := if v0 < 0 then setSpeed s i c (s.colorSpeedAndDirection i c * -1) else s
  let v1 := if v0 < 0 then 0 else v0
  -- if (v > 1.0) { v = 1.0; colorSpeedAndDirection[i][c] *= -1; }
  let s2 := if v1 > 1 then setSpeed s1 i c (s1.colorSpeedAndDirection i c * -1) else s1
  let v2 := if v1 > 1 then 1 else v1
  -- squareColors[i][c] = v;
  setColor s2 i c.castSucc v2

/-- The inner loop `for (let c = 0; c < 3; c++)` (line 248). -/
def channelLoop (i : Fin 10) (s : State) : State :=
  (List.finRange 3).foldl (fun s c => channelBody i c s) s

/-- The outer loop `for (let i = 0; i < squareColors.length; i++)` (line 246). -/
def squareLoop (s : State) : State :=
  (List.finRange 10).foldl (fun s i => channelLoop i s) s

/-- The state part of `render(timeMs)` (lines 241-256). -/
def render (timeMs : ℚ) (s : State) : State :=
  let timeSec := timeMs * (1 / 1000)
  if s.autoMode = true ∧ timeSec - s.lastColorUpdate ≥ COLOR_UPDATE_INTERVAL then
    squareLoop { s with lastColorUpdate := timeSec }
  else s

/-- The initial colours (lines 159-174). -/
def initialColors : Fin 10 → Fin 4 → ℚ :=
  ![![1, 2/10, 2/10, 1],
    ![2/10, 1, 2/10, 1],
    ![2/10, 6/10, 1, 1],
    ![1, 6/10, 2/10, 1],
    ![90/100, 10/100, 90/100, 1],
    ![1, 1, 30/100, 1],
    ![10/100, 90/100, 90/100, 1],
    ![95/100, 50/100, 20/100, 1],
    ![30/100, 80/100, 40/100, 1],
    ![9/10, 3/10, 4/10, 1]]

/-- One initial velocity component `Math.random() * 0.02 - 0.01` (lines 179-181). -/
def initialSpeed (r : ℚ) : ℚ := r * (2 / 100) - 1 / 100

/-- The state after start-up (lines 159-187); `rnd i c` are the thirty `Math.random()` results. -/
def initialState (rnd : Fin 10 → Fin 3 → ℚ) : State where
  squareColors := initialColors
  colorSpeedAndDirection := fun i c => initialSpeed (rnd i c)
  autoMode := true
  lastColorUpdate := 0

/-- A state in automatic mode in which channel 0 of square 0 has colour `1/100` and velocity
`-1/100` (the lowest velocity `Math.random() * 0.02 - 0.01` can give), every other colour
being the initial one and every other velocity `0`. -/
def exactHitState : State where
  squareColors := Function.update initialColors 0 ![1 / 100, 2 / 10, 2 / 10, 1]
  colorSpeedAndDirection := Function.update (fun _ _ => 0) 0 ![-1 / 100, 0, 0]
  autoMode := true
  lastColorUpdate := 0

/-- Running `render` over a list of frame times, first frame first. -/
def renderFrames (times : List ℚ) (s : State) : State :=
  times.foldl (fun s t => render t s) s

/-! ## Observations used to describe the loops -/

/-- The colour and velocity of channel `c` of square `i`. -/
def chan (i : Fin 10) (c : Fin 3) (s : State) : ℚ × ℚ :=
  (s.squareColors i c.castSucc, s.colorSpeedAndDirection i c)

/-- The net effect of the loop body on one (colour, velocity) pair. -/
def bounce (p : ℚ × ℚ) : ℚ × ℚ :=
  if p.1 + p.2 < 0 then (0, -p.2) else if p.1 + p.2 > 1 then (1, -p.2) else (p.1 + p.2, p.2)

/-! ## Keyboard input -/

/-- A JavaScript string, as its sequence of UTF-16 code units. -/
abbrev JSString := List ℕ

/-- The relational comparison `a < b` of two JavaScript strings: lexicographic on code units,
a proper prefix being smaller. -/
def strLt : JSString → JSString → Bool
  | [], [] => false
  | [], _ :: _ => true
  | _ :: _, [] => false
  | a :: as, b :: bs => if a < b then true else if b < a then false else strLt as bs

/-- The comparison `a >= b` on strings, which is `!(a < b)`. -/
def strGe (a b : JSString) : Bool := !strLt a b

/-- The comparison `a <= b` on strings, which is `!(b < a)`. -/
def strLe (a b : JSString) : Bool := !strLt b a

/-- The white space and line terminator code units skipped by `parseInt`. -/
def isWhiteSpace (u : ℕ) : Bool :=
  u ∈ [0x09, 0x0A, 0x0B, 0x0C, 0x0D, 0x20, 0xA0, 0x1680, 0x2000, 0x2001, 0x2002, 0x2003,
    0x2004, 0x2005, 0x2006, 0x2007, 0x2008, 0x2009, 0x200A, 0x2028, 0x2029, 0x202F, 0x205F,
    0x3000, 0xFEFF]

/-- A decimal digit `'0'..'9'`. -/
def isDigit (u : ℕ) : Bool := 48 ≤ u && u ≤ 57

/-- The value of a string of decimal digits. -/
def digitsValue (ds : List ℕ) : ℕ := ds.foldl (fun n d => 10 * n + (d - 48)) 0

/-- The built-in `parseInt(s, 10)`: skip leading white space, read an optional sign, then the
longest run of decimal digits; `none` is `NaN`. -/
def parseInt (s : JSString) : Option ℤ :=
  let s1 := s.dropWhile isWhiteSpace
  let s2 := if s1.head? = some 45 ∨ s1.head? = some 43 then s1.tail else s1
  let ds := s2.takeWhile isDigit
  if ds = [] then none
  else some (if s1.head? = some 45 then -(digitsValue ds : ℤ) else (digitsValue ds : ℤ))

/-- The element read `squareColors[idx]` for a number `idx` (`none` is `NaN`): the array of
square `idx` when `idx` is one of `0..9`, otherwise `undefined` (here `none`). -/
def lookupSquare (idx : Option ℤ) : Option (Fin 10) :=
  match idx with
  | none => none
  | some n => if h : 0 ≤ n ∧ n < 10 then some ⟨n.toNat, by omega⟩ else none

/-- The value of `idx` computed by the `keydown` handler from the key string (lines 200-209);
the outer `none` is `null`, the inner `none` is `NaN`. -/
def keyIndex (key : JSString) : Option (Option ℤ) :=
  -- if (key >= "1" && key <= "9") idx = parseInt(key, 10) - 1;
  if strGe key [49] && strLe key [57] then
    some ((parseInt key).map (fun n => n - 1))
  -- else if (key === "0") idx = 9;
  else if key = [48] then
    some (some 9)
  else none

/-- Rounding of a rational to the nearest integer, a tie going to the even neighbour. -/
def roundHalfEven (x : ℚ) : ℤ :=
  if x - ⌊x⌋ < 1 / 2 then ⌊x⌋
  else if x - ⌊x⌋ > 1 / 2 then ⌊x⌋ + 1
  else if ⌊x⌋ % 2 = 0 then ⌊x⌋
  else ⌊x⌋ + 1

/-- The binary32 value that a store into a `Float32Array` keeps of the number `v`: `v` rounded
to the nearest multiple of `2 ^ (e - 23)`, ties to even, where `2 ^ e ≤ |v| < 2 ^ (e + 1)` and
`e` is not taken below `-126` (subnormal range).  This is the stored value for every `v` of
magnitude below `2 ^ 128`, in particular for every result of `Math.random()`. -/
def fround (v : ℚ) : ℚ :=
  if v = 0 then 0
  else (roundHalfEven (v / 2 ^ (max (Int.log 2 |v|) (-126) - 23)) : ℚ)
    * 2 ^ (max (Int.log 2 |v|) (-126) - 23)

/-- The store `squareColors[i][c] = v` of a computed double `v` into the `Float32Array` of
square `i`, which keeps the binary32 rounding of `v`. -/
def storeFloat32 (s : State) (i : Fin 10) (c : Fin 4) (v : ℚ) : State :=
  setColor s i c (fround v)

/-- The `keydown` handler (lines 195-218) on a key string; `r0 r1 r2` are the results of the
three `Math.random()` calls.  An error is the `TypeError` of storing into `undefined`. -/
def keydown (key : JSString) (r0 r1 r2 : ℚ) (s : State) : Except String State :=
  if s.autoMode = false then
    match keyIndex key with
    | none => Except.ok s
    | some idx =>
      match lookupSquare idx with
      | none => Except.error "TypeError"
      | some i =>
        Except.ok (storeFloat32 (storeFloat32 (storeFloat32 s i 0 r0) i 1 r1) i 2 r2)
  else Except.ok s

/-- The start-up state switched to manual mode, all velocities being `0`. -/
def manualState : State :=
  { initialState (fun _ _ => 1 / 2) with autoMode := false }

/-! ## Layout -/

/-- The configuration record `parameters` (lines 128-136). -/
structure Parameters where
  halfHeight : ℚ
  groundHeight : ℚ
  groundWidth : ℚ
  squareSize : ℚ
  groundGap : ℚ
  interRowGap : ℚ

/-- The values of `parameters` in the source. -/
def parameters : Parameters where
  halfHeight := 3
  groundHeight := 35 / 100
  groundWidth := 8
  squareSize := 1
  groundGap := 32 / 100
  interRowGap := 0

/-- The result of `computeY`. -/
structure RowYs where
  baseY : ℚ
  secondY : ℚ
  thirdY : ℚ
  topY : ℚ

/-- The function `computeY` (lines 139-147), on a configuration `p`. -/
def computeY (p : Parameters) : RowYs :=
  let groundTopY := -p.halfHeight + p.groundHeight
  let baseY := groundTopY + p.squareSize * (1 / 2) + p.groundGap
  let secondY := baseY + p.squareSize + p.interRowGap
  let thirdY := secondY + p.squareSize + p.interRowGap
  let topY := thirdY + p.squareSize + p.interRowGap
  { baseY := baseY, secondY := secondY, thirdY := thirdY, topY := topY }

/-! ## Resize -/

/-- The constant `ASPECT = 5 / 3`, width over height (line 11). -/
def ASPECT : ℚ := 5 / 3

/-- The six arguments of the call `glMatrix.mat4.ortho(state.projection, ...)`. -/
structure Ortho where
  left : ℚ
  right : ℚ
  bottom : ℚ
  top : ℚ
  near : ℚ
  far : ℚ

/-- What `resizeCanvasAndProjection` stores: the canvas size, the ratio `aspect` and the
orthographic volume of `state.projection`. -/
structure Resized where
  width : ℤ
  height : ℤ
  aspect : ℚ
  projection : Ortho

/-- The function `resizeCanvasAndProjection` (lines 12-31) for a window of inner size
`innerWidth` by `innerHeight`. -/
def resizeCanvasAndProjection (p : Parameters) (innerWidth innerHeight : ℤ) : Resized :=
  let pad : ℤ := 20
  let availableWidth : ℤ := max 200 (innerWidth - pad)
  let availableHeight : ℤ := max 200 (innerHeight - 60)
  let width0 : ℤ := availableWidth
  let height0 : ℤ := ⌊(width0 : ℚ) / ASPECT⌋
  let height : ℤ := if height0 > availableHeight then availableHeight else height0
  let width : ℤ := if height0 > availableHeight then ⌊(height : ℚ) * ASPECT⌋ else width0
  let aspect : ℚ := (width : ℚ) / (height : ℚ)
  let halfHeight := p.halfHeight
  let halfWidth := aspect * halfHeight
  { width := width, height := height, aspect := aspect,
    projection :=
      { left := -halfWidth, right := halfWidth, bottom := -halfHeight, top := halfHeight,
        near := -1, far := 1 } }

/-! ## Model matrices

`glMatrix` is an external library.  Its `mat4` functions used by `render` multiply the
matrix they are given on the right: `translate(out, a, v)` stores `a * T(v)`,
`rotate(out, a, rad, axis)` stores `a * R(rad, axis)` and `scale(out, a, v)` stores
`a * S(v)`.  The angle of `rotate` is given by its cosine and sine, the axis as a unit vector. -/

/-- A four by four matrix. -/
abbrev Mat4 := Matrix (Fin 4) (Fin 4) ℚ

/-- The result of `glMatrix.mat4.create()`: the identity. -/
def mat4Create : Mat4 := 1

/-- The result of `glMatrix.mat4.translate(out, a, v)`. -/
def mat4Translate (a : Mat4) (v : Fin 3 → ℚ) : Mat4 :=
  a * !![1, 0, 0, v 0; 0, 1, 0, v 1; 0, 0, 1, v 2; 0, 0, 0, 1]

/-- The result of `glMatrix.mat4.rotate(out, a, rad, axis)` for a unit `axis`, with
`co = cos rad` and `si = sin rad`. -/
def mat4Rotate (a : Mat4) (co si : ℚ) (axis : Fin 3 → ℚ) : Mat4 :=
  let x := axis 0
  let y := axis 1
  let z := axis 2
  let t := 1 - co
  a * !![x * x * t + co, x * y * t - z * si, x * z * t + y * si, 0;
         y * x * t + z * si, y * y * t + co, y * z * t - x * si, 0;
         z * x * t - y * si, z * y * t + x * si, z * z * t + co, 0;
         0, 0, 0, 1]

/-- The result of `glMatrix.mat4.scale(out, a, v)`. -/
def mat4Scale (a : Mat4) (v : Fin 3 → ℚ) : Mat4 :=
  a * !![v 0, 0, 0, 0; 0, v 1, 0, 0; 0, 0, v 2, 0; 0, 0, 0, 1]

/-- The six vertices of the unit square mesh in the XZ plane (lines 99-109). -/
def vertices : List (Fin 3 → ℚ) :=
  [![-1/2, 0, -1/2], ![1/2, 0, -1/2], ![1/2, 0, 1/2],
   ![-1/2, 0, -1/2], ![1/2, 0, 1/2], ![-1/2, 0, 1/2]]

/-- The model matrix of the ground built by `render` (lines 269-273); the rotation by
`-Math.PI / 2` is the exact quarter turn with cosine `0` and sine `-1`. -/
def groundModel (p : Parameters) : Mat4 :=
  let model := mat4Create
  let model := mat4Translate model ![0, -p.halfHeight + p.groundHeight * (1 / 2), 0]
  let model := mat4Rotate model 0 (-1) ![1, 0, 0]
  mat4Scale model ![p.groundWidth, p.groundHeight, 1]

/-- The model matrix of a square drawn at `(x, y)` by `render` (for example lines 277-279). -/
def squareModel (x y : ℚ) : Mat4 :=
  let model := mat4Create
  let model := mat4Translate model ![x, y, 0]
  mat4Rotate model 0 (-1) ![1, 0, 0]

/-- The world position of mesh vertex `v` under the model matrix `m`: the first three
components of `m * (v, 1)`. -/
def transformVertex (m : Mat4) (v : Fin 3 → ℚ) : Fin 3 → ℚ :=
  fun k => (m.mulVec ![v 0, v 1, v 2, 1]) k.castSucc

/-! ## Lemmas on the colour loops -/

theorem channelBody_autoMode (i : Fin 10) (c : Fin 3) (s : State) :
    (channelBody i c s).autoMode = s.autoMode := by
  unfold channelBody setColor setSpeed
  dsimp only
  split_ifs <;> rfl

theorem channelBody_lastColorUpdate (i : Fin 10) (c : Fin 3) (s : State) :
    (channelBody i c s).lastColorUpdate = s.lastColorUpdate := by
  unfold channelBody setColor setSpeed
  dsimp only
  split_ifs <;> rfl

theorem channelBody_alpha (i j : Fin 10) (c : Fin 3) (s : State) :
    (channelBody i c s).squareColors j (Fin.last 3) = s.squareColors j (Fin.last 3) := by
  have hc : Fin.last 3 ≠ c.castSucc := (Fin.castSucc_lt_last c).ne'
  unfold channelBody setColor setSpeed
  dsimp only
  by_cases hj : j = i
  · subst hj
    split_ifs <;> simp [Function.update_noteq hc]
  · split_ifs <;> simp [Function.update_noteq hj]

theorem channelBody_chan_other (i j : Fin 10) (c d : Fin 3) (h : ¬ (j = i ∧ d = c)) (s : State) :
    chan j d (channelBody i c s) = chan j d s := by
  unfold chan channelBody setColor setSpeed
  dsimp only
  by_cases hj : j = i
  · subst hj
    have hd : d ≠ c := fun e => h ⟨rfl, e⟩
    have hd' : d.castSucc ≠ c.castSucc := fun e => hd (Fin.castSucc_injective _ e)
    split_ifs <;> simp [Function.update_noteq hd, Function.update_noteq hd']
  · split_ifs <;> simp [Function.update_noteq hj]

theorem channelBody_chan_self (i : Fin 10) (c : Fin 3) (s : State) :
    chan i c (channelBody i c s) = bounce (chan i c s) := by
  unfold chan channelBody setColor setSpeed bounce
  dsimp only
  split_ifs <;> first | (exfalso; linarith) | simp

/-- A fold whose steps all preserve an observation preserves it. -/
theorem foldl_preserves {ι σ α : Type} (f : ι → σ → σ) (P : σ → α) (l : List ι)
    (h : ∀ k ∈ l, ∀ s, P (f k s) = P s) (s : σ) :
    P (l.foldl (fun s k => f k s) s) = P s := by
  induction l generalizing s with
  | nil => rfl
  | cons k l ih =>
    rw [List.foldl_cons, ih (fun k' hk' => h k' (List.mem_cons_of_mem _ hk')),
      h k (List.mem_cons_self _ _)]

/-- A fold over distinct indices in which only step `j` changes observation `P`,
turning it into `g` of its old value, changes `P` exactly once. -/
theorem foldl_once {ι σ α : Type} (f : ι → σ → σ) (P : σ → α) (g : α → α) (j : ι)
    (hself : ∀ s, P (f j s) = g (P s)) (hother : ∀ k, k ≠ j → ∀ s, P (f k s) = P s)
    (l : List ι) (hl : l.Nodup) (hj : j ∈ l) (s : σ) :
    P (l.foldl (fun s k => f k s) s) = g (P s) := by
  induction l generalizing s with
  | nil => cases hj
  | cons k l ih =>
    rw [List.foldl_cons]
    rw [List.nodup_cons] at hl
    by_cases hk : k = j
    · subst hk
      rw [foldl_preserves f P l (fun k' hk' => hother k' (fun e => hl.1 (e ▸ hk'))), hself]
    · have hj' : j ∈ l := by
        rcases List.mem_cons.1 hj with e | e
        · exact absurd e.symm hk
        · exact e
      rw [ih hl.2 hj', hother k hk]

theorem channelLoop_chan_self (i : Fin 10) (c : Fin 3) (s : State) :
    chan i c (channelLoop i s) = bounce (chan i c s) :=
  foldl_once (fun d s => channelBody i d s) (chan i c) bounce c
    (channelBody_chan_self i c)
    (fun d hd s => channelBody_chan_other i i d c (fun e => hd e.2.symm) s)
    (List.finRange 3) (List.nodup_finRange 3) (List.mem_finRange c) s

theorem channelLoop_chan_other (i j : Fin 10) (c : Fin 3) (h : j ≠ i) (s : State) :
    chan j c (channelLoop i s) = chan j c s :=
  foldl_preserves (fun d s => channelBody i d s) (chan j c) (List.finRange 3)
    (fun d _ s => channelBody_chan_other i j d c (fun e => h e.1) s) s

theorem squareLoop_chan (i : Fin 10) (c : Fin 3) (s : State) :
    chan i c (squareLoop s) = bounce (chan i c s) :=
  foldl_once (fun j s => channelLoop j s) (chan i c) bounce i
    (channelLoop_chan_self i c)
    (fun j hj s => channelLoop_chan_other j i c (fun e => hj e.symm) s)
    (List.finRange 10) (List.nodup_finRange 10) (List.mem_finRange i) s

theorem squareLoop_alpha (i : Fin 10) (s : State) :
    (squareLoop s).squareColors i (Fin.last 3) = s.squareColors i (Fin.last 3) :=
  foldl_preserves (fun j s => channelLoop j s) (fun s => s.squareColors i (Fin.last 3))
    (List.finRange 10)
    (fun j _ s => foldl_preserves (fun d s => channelBody j d s)
      (fun s => s.squareColors i (Fin.last 3)) (List.finRange 3)
      (fun d _ s => channelBody_alpha j i d s) s) s

theorem squareLoop_autoMode (s : State) : (squareLoop s).autoMode = s.autoMode :=
  foldl_preserves (fun j s => channelLoop j s) State.autoMode (List.finRange 10)
    (fun j _ s => foldl_preserves (fun d s => channelBody j d s) State.autoMode
      (List.finRange 3) (fun d _ s => channelBody_autoMode j d s) s) s

theorem squareLoop_lastColorUpdate (s : State) :
    (squareLoop s).lastColorUpdate = s.lastColorUpdate :=
  foldl_preserves (fun j s => channelLoop j s) State.lastColorUpdate (List.finRange 10)
    (fun j _ s => foldl_preserves (fun d s => channelBody j d s) State.lastColorUpdate
      (List.finRange 3) (fun d _ s => channelBody_lastColorUpdate j d s) s) s

/-! ## Lemmas on `render` -/

theorem render_due (t : ℚ) (s : State) (hauto : s.autoMode = true)
    (hdue : t * (1 / 1000) - s.lastColorUpdate ≥ 1 / 2) :
    render t s = squareLoop { s with lastColorUpdate := t * (1 / 1000) } := by
  unfold render COLOR_UPDATE_INTERVAL
  dsimp only
  rw [if_pos ⟨hauto, hdue⟩]

theorem render_not_due (t : ℚ) (s : State)
    (h : s.autoMode = false ∨ t * (1 / 1000) - s.lastColorUpdate < 1 / 2) :
    render t s = s := by
  unfold render COLOR_UPDATE_INTERVAL
  dsimp only
  rw [if_neg]
  rintro ⟨h1, h2⟩
  rcases h with h | h
  · rw [h1] at h
    cases h
  · exact absurd h2 (not_le.2 h)

theorem render_due_chan (t : ℚ) (s : State) (hauto : s.autoMode = true)
    (hdue : t * (1 / 1000) - s.lastColorUpdate ≥ 1 / 2) (i : Fin 10) (c : Fin 3) :
    chan i c (render t s) = bounce (chan i c s) := by
  rw [render_due t s hauto hdue, squareLoop_chan]
  rfl

theorem render_due_color (t : ℚ) (s : State) (hauto : s.autoMode = true)
    (hdue : t * (1 / 1000) - s.lastColorUpdate ≥ 1 / 2) (i : Fin 10) (c : Fin 3) :
    (render t s).squareColors i c.castSucc
      = (bounce (s.squareColors i c.castSucc, s.colorSpeedAndDirection i c)).1 :=
  congrArg Prod.fst (render_due_chan t s hauto hdue i c)

theorem render_due_speed (t : ℚ) (s : State) (hauto : s.autoMode = true)
    (hdue : t * (1 / 1000) - s.lastColorUpdate ≥ 1 / 2) (i : Fin 10) (c : Fin 3) :
    (render t s).colorSpeedAndDirection i c
      = (bounce (s.squareColors i c.castSucc, s.colorSpeedAndDirection i c)).2 :=
  congrArg Prod.snd (render_due_chan t s hauto hdue i c)

theorem render_due_lastColorUpdate (t : ℚ) (s : State) (hauto : s.autoMode = true)
    (hdue : t * (1 / 1000) - s.lastColorUpdate ≥ 1 / 2) :
    (render t s).lastColorUpdate = t * (1 / 1000) := by
  rw [render_due t s hauto hdue, squareLoop_lastColorUpdate]

theorem bounce_fst_mem (p : ℚ × ℚ) : 0 ≤ (bounce p).1 ∧ (bounce p).1 ≤ 1 := by
  unfold bounce
  split_ifs with h1 h2
  · exact ⟨le_refl _, zero_le_one⟩
  · exact ⟨zero_le_one, le_refl _⟩
  · exact ⟨not_lt.1 h1, not_lt.1 h2⟩

/-! ## The claims on the automatic colour update -/

/-- C1: after a frame on which `render` performs the automatic colour update (automatic mode
and at least 0.5 s since the last update), every R, G and B channel of every square lies in
`[0, 1]`, whatever the colours and velocities were before. -/
theorem render_update_channels_in_unit_interval (t : ℚ) (s : State)
    (hauto : s.autoMode = true) (hdue : t * (1 / 1000) - s.lastColorUpdate ≥ 1 / 2) :
    ∀ (i : Fin 10) (c : Fin 3),
      0 ≤ (render t s).squareColors i c.castSucc ∧ (render t s).squareColors i c.castSucc ≤ 1 := by
  intro i c
  rw [render_due_color t s hauto hdue i c]
  exact bounce_fst_mem _

/-- Witness of C1: the first update of a start-up state whose velocities are all `0.01`, read
at the red channel of square 0 (which starts at `1`) and the blue channel of square 9. -/
theorem render_update_channels_in_unit_interval_witness :
    (0 ≤ (render 600 (initialState (fun _ _ => 1))).squareColors 0 (0 : Fin 3).castSucc ∧
      (render 600 (initialState (fun _ _ => 1))).squareColors 0 (0 : Fin 3).castSucc ≤ 1) ∧
    (0 ≤ (render 600 (initialState (fun _ _ => 1))).squareColors 9 (2 : Fin 3).castSucc ∧
      (render 600 (initialState (fun _ _ => 1))).squareColors 9 (2 : Fin 3).castSucc ≤ 1) :=
  ⟨render_update_channels_in_unit_interval 600 (initialState (fun _ _ => 1)) rfl
      (by norm_num [initialState]) 0 0,
    render_update_channels_in_unit_interval 600 (initialState (fun _ _ => 1)) rfl
      (by norm_num [initialState]) 9 2⟩

/-- C2 fails as stated: in `exactHitState` channel 0 of square 0 starts at `1/100` in `[0, 1]`
and its advanced value is exactly `0`, so it reaches the bound; the update stores the bound
`0` but leaves the velocity `-1/100` as it is, so its sign is not inverted. -/
theorem render_exact_hit_keeps_velocity :
    exactHitState.autoMode = true ∧
    (600 : ℚ) * (1 / 1000) - exactHitState.lastColorUpdate ≥ 1 / 2 ∧
    0 ≤ exactHitState.squareColors 0 0 ∧ exactHitState.squareColors 0 0 ≤ 1 ∧
    exactHitState.squareColors 0 0 + exactHitState.colorSpeedAndDirection 0 0 ≤ 0 ∧
    (render 600 exactHitState).squareColors 0 0 = 0 ∧
    (render 600 exactHitState).colorSpeedAndDirection 0 0 = -1 / 100 ∧
    (render 600 exactHitState).colorSpeedAndDirection 0 0
      ≠ -exactHitState.colorSpeedAndDirection 0 0 ∧
    SignType.sign ((render 600 exactHitState).colorSpeedAndDirection 0 0)
      ≠ -SignType.sign (exactHitState.colorSpeedAndDirection 0 0) := by
  have hdue : (600 : ℚ) * (1 / 1000) - exactHitState.lastColorUpdate ≥ 1 / 2 := by
    norm_num [exactHitState]
  have hc := render_due_color 600 exactHitState rfl hdue 0 0
  have hv := render_due_speed 600 exactHitState rfl hdue 0 0
  have e1 : exactHitState.squareColors 0 (0 : Fin 3).castSucc = 1 / 100 := by
    simp [exactHitState]
  have e2 : exactHitState.colorSpeedAndDirection 0 0 = -1 / 100 := by
    simp [exactHitState]
  rw [e1, e2] at hc hv
  have hb : bounce ((1 : ℚ) / 100, (-1 : ℚ) / 100) = (0, -1 / 100) := by
    unfold bounce
    norm_num
  rw [hb] at hc hv
  have e1' : exactHitState.squareColors 0 0 = 1 / 100 := e1
  have hc' : (render 600 exactHitState).squareColors 0 0 = 0 := hc
  have hneg : SignType.sign ((-1 : ℚ) / 100) = -1 := by
    rw [sign_eq_neg_one_iff]
    norm_num
  refine ⟨rfl, hdue, ?_, ?_, ?_, hc', hv, ?_, ?_⟩
  · rw [e1']; norm_num
  · rw [e1']; norm_num
  · rw [e1', e2]; norm_num
  · rw [hv, e2]; norm_num
  · rw [hv, e2, hneg]; decide

/-- C2, amended: in an automatic colour update, for a channel whose colour starts in `[0, 1]`,
when the advanced value `color + velocity` passes a bound strictly (`< 0` or `> 1`) the
channel is set to that bound and its velocity is negated, so the sign of the velocity is
inverted; when the advanced value is exactly `0` or `1` the channel is set to it and the
velocity is unchanged. -/
theorem render_update_bounce (t : ℚ) (s : State)
    (hauto : s.autoMode = true) (hdue : t * (1 / 1000) - s.lastColorUpdate ≥ 1 / 2)
    (i : Fin 10) (c : Fin 3)
    (_hlo : 0 ≤ s.squareColors i c.castSucc) (_hhi : s.squareColors i c.castSucc ≤ 1) :
    (s.squareColors i c.castSucc + s.colorSpeedAndDirection i c < 0 →
      (render t s).squareColors i c.castSucc = 0 ∧
      (render t s).colorSpeedAndDirection i c = -s.colorSpeedAndDirection i c ∧
      SignType.sign ((render t s).colorSpeedAndDirection i c)
        = -SignType.sign (s.colorSpeedAndDirection i c)) ∧
    (s.squareColors i c.castSucc + s.colorSpeedAndDirection i c > 1 →
      (render t s).squareColors i c.castSucc = 1 ∧
      (render t s).colorSpeedAndDirection i c = -s.colorSpeedAndDirection i c ∧
      SignType.sign ((render t s).colorSpeedAndDirection i c)
        = -SignType.sign (s.colorSpeedAndDirection i c)) ∧
    (s.squareColors i c.castSucc + s.colorSpeedAndDirection i c = 0 ∨
      s.squareColors i c.castSucc + s.colorSpeedAndDirection i c = 1 →
      (render t s).squareColors i c.castSucc
        = s.squareColors i c.castSucc + s.colorSpeedAndDirection i c ∧
      (render t s).colorSpeedAndDirection i c = s.colorSpeedAndDirection i c) := by
  rw [render_due_color t s hauto hdue i c, render_due_speed t s hauto hdue i c]
  unfold bounce
  dsimp only
  refine ⟨fun h => ?_, fun h => ?_, fun h => ?_⟩
  · rw [if_pos h]
    exact ⟨rfl, rfl, Left.sign_neg _⟩
  · rw [if_neg (not_lt.2 (le_trans zero_le_one h.le)), if_pos h]
    exact ⟨rfl, rfl, Left.sign_neg _⟩
  · have h0 : ¬ s.squareColors i c.castSucc + s.colorSpeedAndDirection i c < 0 := by
      rcases h with h | h <;> rw [h] <;> norm_num
    have h1 : ¬ s.squareColors i c.castSucc + s.colorSpeedAndDirection i c > 1 := by
      rcases h with h | h <;> rw [h] <;> norm_num
    rw [if_neg h0, if_neg h1]
    exact ⟨rfl, rfl⟩

/-- Witness of the amended C2: at start-up with all velocities `0.01`, the red channel of
square 0 starts at `1`, its advanced value `1.01` passes the upper bound, and the first update
stores `1` and negates the velocity. -/
theorem render_update_bounce_witness :
    (render 600 (initialState (fun _ _ => 1))).squareColors 0 (0 : Fin 3).castSucc = 1 ∧
    (render 600 (initialState (fun _ _ => 1))).colorSpeedAndDirection 0 0
      = -(initialState (fun _ _ => 1)).colorSpeedAndDirection 0 0 ∧
    SignType.sign ((render 600 (initialState (fun _ _ => 1))).colorSpeedAndDirection 0 0)
      = -SignType.sign ((initialState (fun _ _ => 1)).colorSpeedAndDirection 0 0) :=
  (render_update_bounce 600 (initialState (fun _ _ => 1)) rfl (by norm_num [initialState]) 0 0
    (by simp [initialState, initialColors]) (by simp [initialState, initialColors])).2.1
    (by simp [initialState, initialColors, initialSpeed]; norm_num)

/-- C3: a frame in manual mode, or less than 0.5 s after the last update, leaves the whole
state (colours, velocities, timer, mode) unchanged; so the colours, the velocities and the
timer can change only on a frame in automatic mode with at least 0.5 s elapsed, and on such a
frame `lastColorUpdate` becomes that frame's `timeSec = timeMs * 0.001`. -/
theorem render_changes_state_only_when_due (t : ℚ) (s : State) :
    (s.autoMode = false ∨ t * (1 / 1000) - s.lastColorUpdate < 1 / 2 → render t s = s) ∧
    ((render t s).squareColors ≠ s.squareColors ∨
      (render t s).colorSpeedAndDirection ≠ s.colorSpeedAndDirection ∨
      (render t s).lastColorUpdate ≠ s.lastColorUpdate →
      s.autoMode = true ∧ t * (1 / 1000) - s.lastColorUpdate ≥ 1 / 2) ∧
    (s.autoMode = true ∧ t * (1 / 1000) - s.lastColorUpdate ≥ 1 / 2 →
      (render t s).lastColorUpdate = t * (1 / 1000)) := by
  refine ⟨render_not_due t s, fun h => ?_, fun h => render_due_lastColorUpdate t s h.1 h.2⟩
  by_contra hn
  have hnd : s.autoMode = false ∨ t * (1 / 1000) - s.lastColorUpdate < 1 / 2 := by
    by_cases ha : s.autoMode = true
    · exact Or.inr (not_le.1 fun hd => hn ⟨ha, hd⟩)
    · exact Or.inl (Bool.eq_false_iff.2 ha)
  rw [render_not_due t s hnd] at h
  rcases h with h | h | h <;> exact h rfl

/-- Witness of C3: from start-up the frame at 100 ms changes nothing and the frame at 600 ms
sets the timer to 0.6 s. -/
theorem render_changes_state_only_when_due_witness :
    render 100 (initialState (fun _ _ => 1)) = initialState (fun _ _ => 1) ∧
    (render 600 (initialState (fun _ _ => 1))).lastColorUpdate = 600 * (1 / 1000) :=
  ⟨(render_changes_state_only_when_due 100 (initialState (fun _ _ => 1))).1
      (Or.inr (by norm_num [initialState])),
    (render_changes_state_only_when_due 600 (initialState (fun _ _ => 1))).2.2
      ⟨rfl, by norm_num [initialState]⟩⟩

/-! ## Frames up to 0.6 s -/

/-- Once an update happened at 0.5 s or later, frames up to 0.6 s change nothing. -/
theorem renderFrames_after_update (times : List ℚ) (s : State)
    (hlast : 1 / 2 ≤ s.lastColorUpdate) (hrange : ∀ t ∈ times, t ≤ 600) :
    renderFrames times s = s := by
  induction times with
  | nil => rfl
  | cons t l ih =>
    have ht : t ≤ 600 := hrange t (List.mem_cons_self _ _)
    have hstep : render t s = s := render_not_due t s (Or.inr (by linarith))
    unfold renderFrames at ih ⊢
    rw [List.foldl_cons, hstep]
    exact ih fun t' ht' => hrange t' (List.mem_cons_of_mem _ ht')

/-- From a state in automatic mode with timer `0`, frames up to 0.6 s either all come before
0.5 s and change nothing, or apply the colour loops exactly once. -/
theorem renderFrames_before_update (times : List ℚ) (s : State)
    (hauto : s.autoMode = true) (hzero : s.lastColorUpdate = 0)
    (hrange : ∀ t ∈ times, t ≤ 600) :
    ((∀ t ∈ times, t < 500) ∧ renderFrames times s = s) ∨
    ∃ t ∈ times, renderFrames times s = squareLoop { s with lastColorUpdate := t * (1 / 1000) } := by
  induction times with
  | nil => exact Or.inl ⟨fun _ h => absurd h (List.not_mem_nil _), rfl⟩
  | cons t l ih =>
    have hl : ∀ t' ∈ l, t' ≤ 600 := fun t' ht' => hrange t' (List.mem_cons_of_mem _ ht')
    have hunf : renderFrames (t :: l) s = renderFrames l (render t s) := rfl
    by_cases ht : t < 500
    · have hstep : render t s = s := render_not_due t s (Or.inr (by rw [hzero]; linarith))
      rw [hunf, hstep]
      rcases ih hl with ⟨h1, h2⟩ | ⟨t', ht', h2⟩
      · refine Or.inl ⟨fun t' ht' => ?_, h2⟩
        rcases List.mem_cons.1 ht' with e | e
        · rw [e]; exact ht
        · exact h1 t' e
      · exact Or.inr ⟨t', List.mem_cons_of_mem _ ht', h2⟩
    · have hdue : t * (1 / 1000) - s.lastColorUpdate ≥ 1 / 2 := by
        rw [hzero]; linarith [not_lt.1 ht]
      refine Or.inr ⟨t, List.mem_cons_self _ _, ?_⟩
      rw [hunf, render_due t s hauto hdue]
      apply renderFrames_after_update _ _ _ hl
      rw [squareLoop_lastColorUpdate]
      show 1 / 2 ≤ t * (1 / 1000)
      linarith [not_lt.1 ht]

/-- C4: from the start-up state (automatic mode, timer 0, any initial velocities), running
`render` over a non-decreasing list of frame times within `[0, 600]` ms that ends with the
frame at 600 ms applies the colour loops exactly once; so every RGB channel with
`0 ≤ color + velocity ≤ 1` ends at its initial colour plus its initial velocity with its
velocity unchanged, and every alpha channel is unchanged. -/
theorem renderFrames_to_600ms_updates_once (rnd : Fin 10 → Fin 3 → ℚ) (times : List ℚ)
    (_hmono : times.Sorted (fun a b => a ≤ b))
    (hrange : ∀ t ∈ times, 0 ≤ t ∧ t ≤ 600)
    (hlast : times.getLast? = some 600) :
    (∃ t ∈ times, renderFrames times (initialState rnd)
        = squareLoop { initialState rnd with lastColorUpdate := t * (1 / 1000) }) ∧
    (∀ (i : Fin 10) (c : Fin 3),
      0 ≤ initialColors i c.castSucc + initialSpeed (rnd i c) →
      initialColors i c.castSucc + initialSpeed (rnd i c) ≤ 1 →
      (renderFrames times (initialState rnd)).squareColors i c.castSucc
        = initialColors i c.castSucc + initialSpeed (rnd i c) ∧
      (renderFrames times (initialState rnd)).colorSpeedAndDirection i c
        = initialSpeed (rnd i c)) ∧
    (∀ i : Fin 10,
      (renderFrames times (initialState rnd)).squareColors i (Fin.last 3)
        = initialColors i (Fin.last 3)) := by
  have hmem : (600 : ℚ) ∈ times := List.mem_of_getLast?_eq_some hlast
  have hex : ∃ t ∈ times, renderFrames times (initialState rnd)
      = squareLoop { initialState rnd with lastColorUpdate := t * (1 / 1000) } := by
    rcases renderFrames_before_update times (initialState rnd) rfl rfl
        (fun t ht => (hrange t ht).2) with ⟨h1, _⟩ | h
    · exact absurd (h1 600 hmem) (by norm_num)
    · exact h
  refine ⟨hex, fun i c h0 h1 => ?_, fun i => ?_⟩
  · obtain ⟨t, _, ht⟩ := hex
    have hch := squareLoop_chan i c { initialState rnd with lastColorUpdate := t * (1 / 1000) }
    rw [← ht] at hch
    have hb : bounce (chan i c { initialState rnd with lastColorUpdate := t * (1 / 1000) })
        = (initialColors i c.castSucc + initialSpeed (rnd i c), initialSpeed (rnd i c)) := by
      unfold bounce chan initialState
      dsimp only
      rw [if_neg (not_lt.2 h0), if_neg (not_lt.2 h1)]
    rw [hb] at hch
    exact ⟨congrArg Prod.fst hch, congrArg Prod.snd hch⟩
  · obtain ⟨t, _, ht⟩ := hex
    rw [ht, squareLoop_alpha]
    rfl

/-- Witness of C4: start-up with every `Math.random()` result `3/4`, so every velocity is
`0.005`, and the frames at 0, 100, 499, 500, 550 and 600 ms.  The loops run once (at 500 ms):
the blue channel of square 9 goes from `0.4` to `0.405` and keeps its velocity, the red
channel of square 0, which starts at `1`, is outside the premise, and alpha stays `1`. -/
theorem renderFrames_to_600ms_updates_once_witness :
    (∃ t ∈ [(0 : ℚ), 100, 499, 500, 550, 600],
      renderFrames [0, 100, 499, 500, 550, 600] (initialState (fun _ _ => 3 / 4))
        = squareLoop
            { initialState (fun _ _ => 3 / 4) with lastColorUpdate := t * (1 / 1000) }) ∧
    (renderFrames [0, 100, 499, 500, 550, 600]
        (initialState (fun _ _ => 3 / 4))).squareColors 9 (2 : Fin 3).castSucc
      = initialColors 9 (2 : Fin 3).castSucc + initialSpeed (3 / 4) ∧
    initialColors 9 (2 : Fin 3).castSucc + initialSpeed (3 / 4) = 81 / 200 ∧
    initialColors 9 (2 : Fin 3).castSucc = 4 / 10 ∧
    (renderFrames [0, 100, 499, 500, 550, 600]
        (initialState (fun _ _ => 3 / 4))).colorSpeedAndDirection 9 2 = initialSpeed (3 / 4) ∧
    initialSpeed (3 / 4) = 1 / 200 ∧
    (renderFrames [0, 100, 499, 500, 550, 600]
        (initialState (fun _ _ => 3 / 4))).squareColors 9 (Fin.last 3)
      = initialColors 9 (Fin.last 3) := by
  have hcol : initialColors 9 (2 : Fin 3).castSucc = 4 / 10 := rfl
  have hsum : initialColors 9 (2 : Fin 3).castSucc + initialSpeed (3 / 4) = 81 / 200 := by
    rw [hcol]
    norm_num [initialSpeed]
  have h := renderFrames_to_600ms_updates_once (fun _ _ => 3 / 4) [0, 100, 499, 500, 550, 600]
    (by norm_num [List.Sorted]) (by simp; norm_num) rfl
  have hch := h.2.1 9 2 (by rw [hsum]; norm_num) (by rw [hsum]; norm_num)
  exact ⟨h.1, hch.1, hsum, hcol, hch.2, by norm_num [initialSpeed], h.2.2 9⟩

/-! ## Keyboard input -/

theorem keydown_manual (key : JSString) (r0 r1 r2 : ℚ) (s : State) (hman : s.autoMode = false)
    (idx : Option ℤ) (i : Fin 10) (hidx : keyIndex key = some idx)
    (hlook : lookupSquare idx = some i) :
    keydown key r0 r1 r2 s
      = Except.ok (storeFloat32 (storeFloat32 (storeFloat32 s i 0 r0) i 1 r1) i 2 r2) := by
  unfold keydown
  rw [if_pos hman, hidx]
  dsimp only
  rw [hlook]

/-- In automatic mode the handler returns normally and changes nothing, whatever the key. -/
theorem keydown_autoMode_ignored (key : JSString) (r0 r1 r2 : ℚ) (s : State)
    (hauto : s.autoMode = true) : keydown key r0 r1 r2 s = Except.ok s := by
  unfold keydown
  rw [if_neg (by rw [hauto]; exact Bool.noConfusion)]

/-- A key for which `idx` stays `null` is ignored in manual mode as well. -/
theorem keydown_null_index_ignored (key : JSString) (r0 r1 r2 : ℚ) (s : State)
    (hidx : keyIndex key = none) : keydown key r0 r1 r2 s = Except.ok s := by
  unfold keydown
  rw [hidx]
  split_ifs <;> rfl

theorem storeFloat32_rgb (s : State) (i : Fin 10) (r0 r1 r2 : ℚ) :
    (storeFloat32 (storeFloat32 (storeFloat32 s i 0 r0) i 1 r1) i 2 r2).squareColors i
      = ![fround r0, fround r1, fround r2, s.squareColors i 3] := by
  funext c
  fin_cases c <;> simp [storeFloat32, setColor, Function.update]

theorem storeFloat32_rgb_other (s : State) (i j : Fin 10) (hj : j ≠ i) (r0 r1 r2 : ℚ) :
    (storeFloat32 (storeFloat32 (storeFloat32 s i 0 r0) i 1 r1) i 2 r2).squareColors j
      = s.squareColors j := by
  simp [storeFloat32, setColor, Function.update_noteq hj]

/-! ### Binary32 rounding -/

theorem fround_zero : fround 0 = 0 := by
  unfold fround
  rw [if_pos rfl]

theorem roundHalfEven_bounds (x : ℚ) : ⌊x⌋ ≤ roundHalfEven x ∧ roundHalfEven x ≤ ⌊x⌋ + 1 := by
  unfold roundHalfEven
  split_ifs <;> constructor <;> omega

/-- The formula of `fround` on a positive number whose binade is known. -/
theorem fround_of_binade (v : ℚ) (e : ℤ) (hlo : (2 : ℚ) ^ e ≤ v) (hhi : v < (2 : ℚ) ^ (e + 1))
    (he : -126 ≤ e) :
    fround v = (roundHalfEven (v / 2 ^ (e - 23)) : ℚ) * 2 ^ (e - 23) := by
  have hpos : 0 < v := lt_of_lt_of_le (zpow_pos (by norm_num) e) hlo
  have hlog : Int.log 2 v = e := by
    have h1 : e ≤ Int.log 2 v := (Int.zpow_le_iff_le_log (by norm_num) hpos).1 (by exact_mod_cast hlo)
    have h2 : Int.log 2 v < e + 1 :=
      (Int.lt_zpow_iff_log_lt (by norm_num) hpos).1 (by exact_mod_cast hhi)
    omega
  unfold fround
  rw [if_neg hpos.ne', abs_of_pos hpos, hlog, max_eq_left he]

/-- A number in `[0, 1)` is stored as a number in `[0, 1]`. -/
theorem fround_unit (r : ℚ) (h0 : 0 ≤ r) (h1 : r < 1) : 0 ≤ fround r ∧ fround r ≤ 1 := by
  by_cases hr : r = 0
  · rw [hr, fround_zero]
    exact ⟨le_refl _, zero_le_one⟩
  have hpos : 0 < r := lt_of_le_of_ne h0 (Ne.symm hr)
  have hlog : Int.log 2 r < 0 :=
    (Int.lt_zpow_iff_log_lt (by norm_num) hpos).1 (by simpa using h1)
  have hup : r < (2 : ℚ) ^ (Int.log 2 r + 1) := by
    exact_mod_cast Int.lt_zpow_succ_log_self (by norm_num : 1 < 2) r
  unfold fround
  rw [if_neg hr, abs_of_pos hpos]
  generalize Int.log 2 r = l at hlog hup
  generalize hE : max l (-126) = e
  have hle : l ≤ e := hE ▸ le_max_left _ _
  have he : e ≤ -1 := by
    rw [← hE]
    exact max_le (by omega) (by norm_num)
  have hq : (0 : ℚ) < 2 ^ (e - 23) := zpow_pos (by norm_num) _
  have hsplit : (2 : ℚ) ^ (e + 1) = 2 ^ (24 : ℤ) * 2 ^ (e - 23) := by
    rw [← zpow_add₀ (by norm_num : (2 : ℚ) ≠ 0)]
    congr 1
    ring
  have hr' : r < (2 : ℚ) ^ (e + 1) :=
    lt_of_lt_of_le hup (zpow_le_zpow_right₀ (by norm_num) (by omega))
  have hx0 : 0 ≤ r / 2 ^ (e - 23) := div_nonneg h0 hq.le
  have hx1 : r / 2 ^ (e - 23) < ((16777216 : ℤ) : ℚ) := by
    rw [div_lt_iff₀ hq]
    have e24 : (2 : ℚ) ^ (24 : ℤ) = ((16777216 : ℤ) : ℚ) := by norm_num
    rw [← e24, ← hsplit]
    exact hr'
  have hb := roundHalfEven_bounds (r / 2 ^ (e - 23))
  have hf0 : 0 ≤ ⌊r / 2 ^ (e - 23)⌋ := Int.floor_nonneg.2 hx0
  have hf1 : ⌊r / 2 ^ (e - 23)⌋ < 16777216 := Int.floor_lt.2 hx1
  have hm0 : (0 : ℚ) ≤ (roundHalfEven (r / 2 ^ (e - 23)) : ℚ) := by
    exact_mod_cast le_trans hf0 hb.1
  have hm1 : (roundHalfEven (r / 2 ^ (e - 23)) : ℚ) ≤ 2 ^ (24 : ℤ) := by
    have h : roundHalfEven (r / 2 ^ (e - 23)) ≤ 16777216 := by omega
    have h' : (roundHalfEven (r / 2 ^ (e - 23)) : ℚ) ≤ ((16777216 : ℤ) : ℚ) := by
      exact_mod_cast h
    have e24 : (2 : ℚ) ^ (24 : ℤ) = ((16777216 : ℤ) : ℚ) := by norm_num
    rw [e24]
    exact h'
  refine ⟨mul_nonneg hm0 hq.le, ?_⟩
  calc (roundHalfEven (r / 2 ^ (e - 23)) : ℚ) * 2 ^ (e - 23)
      ≤ 2 ^ (24 : ℤ) * 2 ^ (e - 23) := mul_le_mul_of_nonneg_right hm1 hq.le
    _ = 2 ^ (e + 1) := hsplit.symm
    _ ≤ 2 ^ (0 : ℤ) := zpow_le_zpow_right₀ (by norm_num) (by omega)
    _ = 1 := zpow_zero _

/-- The double `1 - 2 ^ (-26)` is stored as `1`. -/
theorem fround_near_one : fround (67108863 / 67108864) = 1 := by
  rw [fround_of_binade (67108863 / 67108864) (-1) (by norm_num) (by norm_num) (by norm_num)]
  have hx : (67108863 / 67108864 : ℚ) / 2 ^ ((-1 : ℤ) - 23) = 67108863 / 4 := by norm_num
  rw [hx]
  have hfl : ⌊(67108863 / 4 : ℚ)⌋ = 16777215 := by
    rw [Int.floor_eq_iff]
    norm_num
  have hround : roundHalfEven (67108863 / 4) = 16777216 := by
    unfold roundHalfEven
    rw [hfl]
    norm_num
  rw [hround]
  norm_num

/-- C5 fails as stated: in manual mode, key `1` with a first `Math.random()` result of
`1 - 2 ^ (-26)`, which lies in `[0, 1)`, stores exactly `1` in the red channel of square 0:
the stored value is not below `1` and is not the random result. -/
theorem keydown_stores_one :
    manualState.autoMode = false ∧
    (0 : ℚ) ≤ 67108863 / 67108864 ∧ (67108863 / 67108864 : ℚ) < 1 ∧
    (∃ s1 : State,
      keydown [48 + 1] (67108863 / 67108864) (1 / 2) (1 / 2) manualState = Except.ok s1 ∧
      s1.squareColors 0 0 = 1 ∧ ¬ (s1.squareColors 0 0 < 1) ∧
      s1.squareColors 0 0 ≠ 67108863 / 67108864) := by
  refine ⟨rfl, by norm_num, by norm_num, _,
    keydown_manual _ _ _ _ manualState rfl (some 0) 0 rfl rfl, ?_, ?_, ?_⟩
  · rw [storeFloat32_rgb]
    exact fround_near_one
  · rw [storeFloat32_rgb]
    exact not_lt.2 (le_of_eq fround_near_one.symm)
  · rw [storeFloat32_rgb]
    show fround (67108863 / 67108864) ≠ 67108863 / 67108864
    rw [fround_near_one]
    norm_num

/-- C5, amended: in manual mode a digit key `k` in `1..9` (code unit `48 + k`) targets square
`k - 1`, and the key `0` targets square 9; the handler returns normally, replaces the R, G and
B channels of the target by the binary32 roundings of the three random values, each of which
lies in `[0, 1]` when the random values lie in `[0, 1)`, and leaves the target's alpha, all
other squares, all velocities, the timer and the mode unchanged. -/
theorem keydown_digit_randomizes_square (s : State) (hman : s.autoMode = false)
    (r0 r1 r2 : ℚ) (hr0 : 0 ≤ r0 ∧ r0 < 1) (hr1 : 0 ≤ r1 ∧ r1 < 1) (hr2 : 0 ≤ r2 ∧ r2 < 1)
    (k : ℕ) (target : Fin 10)
    (hkey : (1 ≤ k ∧ k ≤ 9 ∧ target.val = k - 1) ∨ (k = 0 ∧ target.val = 9)) :
    ∃ s1 : State, keydown [48 + k] r0 r1 r2 s = Except.ok s1 ∧
      s1.squareColors target 0 = fround r0 ∧ s1.squareColors target 1 = fround r1 ∧
      s1.squareColors target 2 = fround r2 ∧
      (∀ c : Fin 3, 0 ≤ s1.squareColors target c.castSucc ∧
        s1.squareColors target c.castSucc ≤ 1) ∧
      s1.squareColors target 3 = s.squareColors target 3 ∧
      (∀ j : Fin 10, j ≠ target → s1.squareColors j = s.squareColors j) ∧
      s1.colorSpeedAndDirection = s.colorSpeedAndDirection ∧
      s1.lastColorUpdate = s.lastColorUpdate ∧ s1.autoMode = s.autoMode := by
  have hres : keydown [48 + k] r0 r1 r2 s
      = Except.ok (storeFloat32 (storeFloat32 (storeFloat32 s target 0 r0) target 1 r1)
          target 2 r2) := by
    rcases hkey with ⟨h1, h9, ht⟩ | ⟨h0, ht⟩
    · interval_cases k
      · obtain rfl : target = 0 := Fin.ext ht
        exact keydown_manual _ r0 r1 r2 s hman (some 0) _ rfl rfl
      · obtain rfl : target = 1 := Fin.ext ht
        exact keydown_manual _ r0 r1 r2 s hman (some 1) _ rfl rfl
      · obtain rfl : target = 2 := Fin.ext ht
        exact keydown_manual _ r0 r1 r2 s hman (some 2) _ rfl rfl
      · obtain rfl : target = 3 := Fin.ext ht
        exact keydown_manual _ r0 r1 r2 s hman (some 3) _ rfl rfl
      · obtain rfl : target = 4 := Fin.ext ht
        exact keydown_manual _ r0 r1 r2 s hman (some 4) _ rfl rfl
      · obtain rfl : target = 5 := Fin.ext ht
        exact keydown_manual _ r0 r1 r2 s hman (some 5) _ rfl rfl
      · obtain rfl : target = 6 := Fin.ext ht
        exact keydown_manual _ r0 r1 r2 s hman (some 6) _ rfl rfl
      · obtain rfl : target = 7 := Fin.ext ht
        exact keydown_manual _ r0 r1 r2 s hman (some 7) _ rfl rfl
      · obtain rfl : target = 8 := Fin.ext ht
        exact keydown_manual _ r0 r1 r2 s hman (some 8) _ rfl rfl
    · subst h0
      obtain rfl : target = 9 := Fin.ext ht
      exact keydown_manual _ r0 r1 r2 s hman (some 9) _ rfl rfl
  have hrow := storeFloat32_rgb s target r0 r1 r2
  refine ⟨_, hres, ?_, ?_, ?_, ?_, ?_, ?_, rfl, rfl, rfl⟩
  · rw [hrow]; rfl
  · rw [hrow]; rfl
  · rw [hrow]; rfl
  · intro c
    rw [hrow]
    fin_cases c
    · exact fround_unit r0 hr0.1 hr0.2
    · exact fround_unit r1 hr1.1 hr1.2
    · exact fround_unit r2 hr2.1 hr2.2
  · rw [hrow]; rfl
  · intro j hj
    exact storeFloat32_rgb_other s target j hj r0 r1 r2

/-- Witness of the amended C5: key `3` in manual mode at start-up, with the random results
`1 - 2 ^ (-26)`, `1/3` and `3/4`, replaces the colour of square 2. -/
theorem keydown_digit_randomizes_square_witness :
    ∃ s1 : State,
      keydown [48 + 3] (67108863 / 67108864) (1 / 3) (3 / 4) manualState = Except.ok s1 ∧
      s1.squareColors 2 0 = fround (67108863 / 67108864) ∧
      s1.squareColors 2 1 = fround (1 / 3) ∧
      s1.squareColors 2 2 = fround (3 / 4) ∧
      (∀ c : Fin 3, 0 ≤ s1.squareColors 2 c.castSucc ∧ s1.squareColors 2 c.castSucc ≤ 1) ∧
      s1.squareColors 2 3 = manualState.squareColors 2 3 ∧
      (∀ j : Fin 10, j ≠ 2 → s1.squareColors j = manualState.squareColors j) ∧
      s1.colorSpeedAndDirection = manualState.colorSpeedAndDirection ∧
      s1.lastColorUpdate = manualState.lastColorUpdate ∧ s1.autoMode = manualState.autoMode :=
  keydown_digit_randomizes_square manualState rfl (67108863 / 67108864) (1 / 3) (3 / 4)
    (by norm_num) (by norm_num) (by norm_num) 3 2 (Or.inl ⟨by decide, by decide, rfl⟩)

/-- C6 fails on multi-character keys: in manual mode the key string `"12"` satisfies
`key >= "1" && key <= "9"`, gives `idx = 11` and the store into `squareColors[11]` throws;
the key string `"10"` gives `idx = 9` and overwrites the colour of square 9. -/
theorem keydown_multichar_key_not_ignored :
    manualState.autoMode = false ∧
    keyIndex [49, 50] = some (some 11) ∧
    keydown [49, 50] 0 0 0 manualState = Except.error "TypeError" ∧
    keyIndex [49, 48] = some (some 9) ∧
    (∃ s1 : State, keydown [49, 48] 0 0 0 manualState = Except.ok s1 ∧
      s1.squareColors 9 0 = 0 ∧ manualState.squareColors 9 0 = 9 / 10) := by
  refine ⟨rfl, rfl, rfl, rfl, _, keydown_manual _ 0 0 0 manualState rfl (some 9) 9 rfl rfl, ?_, ?_⟩
  · rw [storeFloat32_rgb]
    exact fround_zero
  · rfl

/-! ## Layout -/

/-- C7: `computeY` stacks the four row centres with the constant spacing
`squareSize + interRowGap`, starting from
`baseY = -halfHeight + groundHeight + squareSize / 2 + groundGap`; so the rows are strictly
increasing whenever that spacing is positive, and for the values of `parameters` they are
`-1.83`, `-0.83`, `0.17` and `1.17`, with spacing `1`. -/
theorem computeY_constant_spacing :
    (∀ p : Parameters,
      (computeY p).secondY - (computeY p).baseY = p.squareSize + p.interRowGap ∧
      (computeY p).thirdY - (computeY p).secondY = p.squareSize + p.interRowGap ∧
      (computeY p).topY - (computeY p).thirdY = p.squareSize + p.interRowGap ∧
      (computeY p).baseY = -p.halfHeight + p.groundHeight + p.squareSize / 2 + p.groundGap ∧
      (0 < p.squareSize + p.interRowGap →
        (computeY p).baseY < (computeY p).secondY ∧
        (computeY p).secondY < (computeY p).thirdY ∧
        (computeY p).thirdY < (computeY p).topY)) ∧
    (computeY parameters).baseY = -183 / 100 ∧ (computeY parameters).secondY = -83 / 100 ∧
    (computeY parameters).thirdY = 17 / 100 ∧ (computeY parameters).topY = 117 / 100 ∧
    parameters.squareSize + parameters.interRowGap = 1 := by
  refine ⟨fun p => ?_, ?_, ?_, ?_, ?_, ?_⟩
  · unfold computeY
    dsimp only
    refine ⟨by ring, by ring, by ring, by ring, fun h => ⟨?_, ?_, ?_⟩⟩ <;> linarith
  all_goals norm_num [computeY, parameters]

/-- Witness of C7: the values of `parameters` have positive spacing, so their rows are
strictly increasing. -/
theorem computeY_constant_spacing_witness :
    (computeY parameters).baseY < (computeY parameters).secondY ∧
    (computeY parameters).secondY < (computeY parameters).thirdY ∧
    (computeY parameters).thirdY < (computeY parameters).topY :=
  (computeY_constant_spacing.1 parameters).2.2.2.2 (by norm_num [parameters])

/-! ## Resize -/

/-- The integer bounds that define `Math.floor(n / ASPECT)`. -/
theorem floor_div_ASPECT (n : ℤ) :
    5 * ⌊(n : ℚ) / ASPECT⌋ ≤ 3 * n ∧ 3 * n < 5 * ⌊(n : ℚ) / ASPECT⌋ + 5 := by
  have h1 := Int.floor_le ((n : ℚ) / ASPECT)
  have h2 := Int.lt_floor_add_one ((n : ℚ) / ASPECT)
  generalize ⌊(n : ℚ) / ASPECT⌋ = f at h1 h2 ⊢
  have e : (n : ℚ) / ASPECT = 3 * n / 5 := by
    unfold ASPECT
    ring
  rw [e] at h1 h2
  constructor
  · have h : (5 * f : ℚ) ≤ 3 * n := by linarith
    exact_mod_cast h
  · have h : (3 * n : ℚ) < 5 * f + 5 := by linarith
    exact_mod_cast h

/-- The integer bounds that define `Math.floor(n * ASPECT)`. -/
theorem floor_mul_ASPECT (n : ℤ) :
    3 * ⌊(n : ℚ) * ASPECT⌋ ≤ 5 * n ∧ 5 * n < 3 * ⌊(n : ℚ) * ASPECT⌋ + 3 := by
  have h1 := Int.floor_le ((n : ℚ) * ASPECT)
  have h2 := Int.lt_floor_add_one ((n : ℚ) * ASPECT)
  generalize ⌊(n : ℚ) * ASPECT⌋ = f at h1 h2 ⊢
  have e : (n : ℚ) * ASPECT = 5 * n / 3 := by
    unfold ASPECT
    ring
  rw [e] at h1 h2
  constructor
  · have h : (3 * f : ℚ) ≤ 5 * n := by linarith
    exact_mod_cast h
  · have h : (5 * n : ℚ) < 3 * f + 3 := by linarith
    exact_mod_cast h

/-- The two branches of the fit in `resizeCanvasAndProjection`. -/
theorem resize_branches (p : Parameters) (w h : ℤ) :
    ((resizeCanvasAndProjection p w h).width = max 200 (w - 20) ∧
      (resizeCanvasAndProjection p w h).height = ⌊((max 200 (w - 20) : ℤ) : ℚ) / ASPECT⌋ ∧
      ⌊((max 200 (w - 20) : ℤ) : ℚ) / ASPECT⌋ ≤ max 200 (h - 60)) ∨
    ((resizeCanvasAndProjection p w h).width = ⌊((max 200 (h - 60) : ℤ) : ℚ) * ASPECT⌋ ∧
      (resizeCanvasAndProjection p w h).height = max 200 (h - 60) ∧
      max 200 (h - 60) < ⌊((max 200 (w - 20) : ℤ) : ℚ) / ASPECT⌋) := by
  unfold resizeCanvasAndProjection
  dsimp only
  by_cases hgt : ⌊((max 200 (w - 20) : ℤ) : ℚ) / ASPECT⌋ > max 200 (h - 60)
  · right
    rw [if_pos hgt, if_pos hgt]
    exact ⟨rfl, rfl, hgt⟩
  · left
    rw [if_neg hgt, if_neg hgt]
    exact ⟨rfl, rfl, not_lt.1 hgt⟩

/-- The canvas size bounds of `resizeCanvasAndProjection`, in integers. -/
theorem resize_bounds (p : Parameters) (w h : ℤ) :
    200 ≤ (resizeCanvasAndProjection p w h).width ∧
    120 ≤ (resizeCanvasAndProjection p w h).height ∧
    (resizeCanvasAndProjection p w h).width ≤ max 200 (w - 20) ∧
    (resizeCanvasAndProjection p w h).height ≤ max 200 (h - 60) := by
  have hd := floor_div_ASPECT (max 200 (w - 20))
  have hm := floor_mul_ASPECT (max 200 (h - 60))
  rcases resize_branches p w h with ⟨hw, hh, hle⟩ | ⟨hw, hh, hlt⟩
  · rw [hw, hh]
    generalize ⌊((max 200 (w - 20) : ℤ) : ℚ) / ASPECT⌋ = f at hd hle ⊢
    omega
  · rw [hw, hh]
    generalize ⌊((max 200 (w - 20) : ℤ) : ℚ) / ASPECT⌋ = f at hd hlt ⊢
    generalize ⌊((max 200 (h - 60) : ℤ) : ℚ) * ASPECT⌋ = g at hm ⊢
    omega

/-- C8: for every window size, `resizeCanvasAndProjection` gives a positive canvas height, so
`aspect = width / height` is a quotient by a non-zero number, and calls `mat4.ortho` with
bottom and top `-halfHeight` and `halfHeight` (`3` for `parameters`, whatever the window),
left and right `-aspect * halfHeight` and `aspect * halfHeight`, near `-1` and far `1`. -/
theorem resize_projection_extents (p : Parameters) (innerWidth innerHeight : ℤ) :
    0 < (resizeCanvasAndProjection p innerWidth innerHeight).height ∧
    ((resizeCanvasAndProjection p innerWidth innerHeight).height : ℚ) ≠ 0 ∧
    (resizeCanvasAndProjection p innerWidth innerHeight).aspect
      = ((resizeCanvasAndProjection p innerWidth innerHeight).width : ℚ)
        / ((resizeCanvasAndProjection p innerWidth innerHeight).height : ℚ) ∧
    (resizeCanvasAndProjection p innerWidth innerHeight).projection.bottom = -p.halfHeight ∧
    (resizeCanvasAndProjection p innerWidth innerHeight).projection.top = p.halfHeight ∧
    (resizeCanvasAndProjection p innerWidth innerHeight).projection.left
      = -((resizeCanvasAndProjection p innerWidth innerHeight).aspect * p.halfHeight) ∧
    (resizeCanvasAndProjection p innerWidth innerHeight).projection.right
      = (resizeCanvasAndProjection p innerWidth innerHeight).aspect * p.halfHeight ∧
    (resizeCanvasAndProjection p innerWidth innerHeight).projection.near = -1 ∧
    (resizeCanvasAndProjection p innerWidth innerHeight).projection.far = 1 ∧
    parameters.halfHeight = 3 := by
  have hb := resize_bounds p innerWidth innerHeight
  have hpos : 0 < (resizeCanvasAndProjection p innerWidth innerHeight).height := by omega
  refine ⟨hpos, ?_, rfl, rfl, rfl, rfl, rfl, rfl, rfl, rfl⟩
  exact_mod_cast hpos.ne'

/-- C9 fails as stated: a window of inner size 220 by 1000 gets a canvas of 200 by 120, so
the canvas height is below 200. -/
theorem resize_height_below_200 :
    (resizeCanvasAndProjection parameters 220 1000).width = 200 ∧
    (resizeCanvasAndProjection parameters 220 1000).height = 120 ∧
    ¬ (200 ≤ (resizeCanvasAndProjection parameters 220 1000).height) := by
  have hd := floor_div_ASPECT (max 200 (220 - 20))
  have hb := resize_bounds parameters 220 1000
  rcases resize_branches parameters 220 1000 with ⟨hw, hh, _⟩ | ⟨_, _, hlt⟩
  · rw [hw, hh]
    generalize ⌊((max 200 (220 - 20) : ℤ) : ℚ) / ASPECT⌋ = f at hd ⊢
    omega
  · generalize ⌊((max 200 (220 - 20) : ℤ) : ℚ) / ASPECT⌋ = f at hd hlt
    omega

/-- C9, amended: for every window size the canvas computed by `resizeCanvasAndProjection` has
width at least 200 and height at least 120, fits the available space (width at most
`max(200, innerWidth - 20)`, height at most `max(200, innerHeight - 60)`), and is 5:3 up to
flooring: `height = floor(3 * width / 5)` or `width = floor(5 * height / 3)`. -/
theorem resize_canvas_size (innerWidth innerHeight : ℤ) :
    200 ≤ (resizeCanvasAndProjection parameters innerWidth innerHeight).width ∧
    120 ≤ (resizeCanvasAndProjection parameters innerWidth innerHeight).height ∧
    (resizeCanvasAndProjection parameters innerWidth innerHeight).width
      ≤ max 200 (innerWidth - 20) ∧
    (resizeCanvasAndProjection parameters innerWidth innerHeight).height
      ≤ max 200 (innerHeight - 60) ∧
    ((resizeCanvasAndProjection parameters innerWidth innerHeight).height
        = ⌊(3 : ℚ) * (resizeCanvasAndProjection parameters innerWidth innerHeight).width / 5⌋ ∨
      (resizeCanvasAndProjection parameters innerWidth innerHeight).width
        = ⌊(5 : ℚ) * (resizeCanvasAndProjection parameters innerWidth innerHeight).height / 3⌋) := by
  obtain ⟨h1, h2, h3, h4⟩ := resize_bounds parameters innerWidth innerHeight
  refine ⟨h1, h2, h3, h4, ?_⟩
  rcases resize_branches parameters innerWidth innerHeight with ⟨hw, hh, _⟩ | ⟨hw, hh, _⟩
  · left
    rw [hh, hw]
    congr 1
    unfold ASPECT
    ring
  · right
    rw [hh, hw]
    congr 1
    unfold ASPECT
    ring

/-! ## The ground rectangle -/

/-- The world position of a mesh point under the ground's model matrix. -/
theorem groundModel_transform (p : Parameters) (v : Fin 3 → ℚ) :
    transformVertex (groundModel p) v 0 = p.groundWidth * v 0 ∧
    transformVertex (groundModel p) v 1 = -p.halfHeight + p.groundHeight * (1 / 2) + v 2 ∧
    transformVertex (groundModel p) v 2 = -(p.groundHeight * v 1) := by
  have h2 : (2 : Fin 3).castSucc = (2 : Fin 4) := rfl
  refine ⟨?_, ?_, ?_⟩
  · simp [transformVertex, groundModel, mat4Scale, mat4Rotate, mat4Translate, mat4Create,
      Matrix.mul_apply, Matrix.mulVec, Matrix.dotProduct, Fin.sum_univ_four]
  · simp [transformVertex, groundModel, mat4Scale, mat4Rotate, mat4Translate, mat4Create,
      Matrix.mul_apply, Matrix.mulVec, Matrix.dotProduct, Fin.sum_univ_four]
    ring
  · simp [transformVertex, groundModel, mat4Scale, mat4Rotate, mat4Translate, mat4Create,
      Matrix.mul_apply, Matrix.mulVec, Matrix.dotProduct, Fin.sum_univ_four, h2]

/-- The world position of a mesh point under the model matrix of a square at `(x, y)`. -/
theorem squareModel_transform (x y : ℚ) (v : Fin 3 → ℚ) :
    transformVertex (squareModel x y) v 0 = x + v 0 ∧
    transformVertex (squareModel x y) v 1 = y + v 2 ∧
    transformVertex (squareModel x y) v 2 = -v 1 := by
  have h2 : (2 : Fin 3).castSucc = (2 : Fin 4) := rfl
  refine ⟨?_, ?_, ?_⟩
  · simp [transformVertex, squareModel, mat4Rotate, mat4Translate, mat4Create,
      Matrix.mul_apply, Matrix.mulVec, Matrix.dotProduct, Fin.sum_univ_four]
    ring
  · simp [transformVertex, squareModel, mat4Rotate, mat4Translate, mat4Create,
      Matrix.mul_apply, Matrix.mulVec, Matrix.dotProduct, Fin.sum_univ_four]
    ring
  · simp [transformVertex, squareModel, mat4Rotate, mat4Translate, mat4Create,
      Matrix.mul_apply, Matrix.mulVec, Matrix.dotProduct, Fin.sum_univ_four, h2]

/-- C10 fails on the code: with the values of `parameters` the six mesh vertices of the ground
land at `x = -4` or `4` and `y = -3.325` or `-2.325`, so the rectangle is 1 high and not
`groundHeight = 0.35`; its top edge `-2.325` is not the `groundTopY = -2.65` of `computeY` and
lies above the bottom edge `-2.33` of the base-row squares. -/
theorem ground_rectangle_is_one_high :
    vertices.map (fun v => (transformVertex (groundModel parameters) v 0,
        transformVertex (groundModel parameters) v 1,
        transformVertex (groundModel parameters) v 2))
      = [(-4, -133 / 40, 0), (4, -133 / 40, 0), (4, -93 / 40, 0),
         (-4, -133 / 40, 0), (4, -93 / 40, 0), (-4, -93 / 40, 0)] ∧
    -parameters.halfHeight + parameters.groundHeight = -53 / 20 ∧
    (-93 / 40 : ℚ) ≠ -parameters.halfHeight + parameters.groundHeight ∧
    (computeY parameters).baseY - parameters.squareSize / 2 = -233 / 100 ∧
    transformVertex (squareModel (-3 / 2) (computeY parameters).baseY) ![-1 / 2, 0, -1 / 2] 1
      = -233 / 100 ∧
    (computeY parameters).baseY - parameters.squareSize / 2 < -93 / 40 := by
  refine ⟨?_, ?_, ?_, ?_, ?_, ?_⟩
  · simp only [vertices, List.map, groundModel_transform]
    norm_num [parameters]
  · norm_num [parameters]
  · norm_num [parameters]
  · norm_num [parameters, computeY]
  · rw [(squareModel_transform _ _ _).2.1]
    norm_num [parameters, computeY]
  · norm_num [parameters, computeY]

end GlDemo
